import Mathlib

/-!
Verification of the STCM incremental chunked-extraction and merge pipeline
(`src/backend`): the chunk windower (`services/chunk_processor.py`), the
hallucination detector (`services/hallucination_detector.py`), the per-scan
entity merge of `run_scan` (`api/routes.py`), the extractor validation step
(`services/entity_extractor.py`) and the scan lock (`utils/scan_lock.py`),
shallowly embedded in Lean.

Modelling conventions:
* Python `float` arithmetic: the detector and extractor only ever add the
  decimal constants 0.05, 0.03, 0.2, 0.3, 0.4, 0.5 and compare against
  0.5, 0.6, 0.7, 0.9, 1.0; every comparison reachable from those sums gives
  the same answer in binary `float` and in exact rationals, so `float` is
  modelled with `ℚ`.
* Python `str` is modelled with `String`/`List Char` over its ASCII
  fragment (`\w`, `\s`, `lower()` agree with the Lean counterparts there).
* A Python dict-shaped entity is modelled as a structure of `Option`
  fields: `none` stands for an absent (or `null`) key.
* `while` loops whose termination depends on the configuration are
  translated with an explicit fuel parameter returning `Option`; `none`
  means the loop has not finished within the given fuel, and a result
  independent of all sufficiently large fuels is the loop's value.
-/

namespace STCM

attribute [local semireducible] Rat.add Rat.mul Rat.inv Rat.sub

/-- Python `\s` (ASCII fragment): the characters `str.split()` and the
regular-expression engine treat as whitespace. -/
def isSpaceChar (c : Char) : Bool :=
  c == ' ' || c == '\t' || c == '\n' || c == '\r' || c == '\x0b' || c == '\x0c'

/-- Python `\w` (ASCII fragment): letters, digits and underscore. -/
def isWordChar (c : Char) : Bool :=
  c.isAlphanum || c == '_'

/-- Python `str.lower()` (ASCII fragment). -/
def pyLower (s : String) : String :=
  String.mk (s.data.map Char.toLower)

/-- Recursion core of `pyCount`: counts non-overlapping occurrences scanning
left to right, as Python `str.count` does; `fuel ≥ hay.length` suffices for a
non-empty needle. -/
def pyCountAux (needle : List Char) : List Char → ℕ → ℕ
  | _, 0 => 0
  | [], _ + 1 => 0
  | c :: rest, fuel + 1 =>
    if needle.isPrefixOf (c :: rest) then
      1 + pyCountAux needle ((c :: rest).drop needle.length) fuel
    else
      pyCountAux needle rest fuel

/-- Python `hay.count(needle)`: non-overlapping occurrences; an empty needle
counts `len(hay) + 1` occurrences, as in Python. -/
def pyCount (needle hay : List Char) : ℕ :=
  if needle.isEmpty then hay.length + 1 else pyCountAux needle hay hay.length

/-- Python `hay.count(needle)` on strings. -/
def pyCountStr (needle hay : String) : ℕ :=
  pyCount needle.data hay.data

/-- Recursion core of `pyContains`: the needle is a prefix of some suffix. -/
def containsSub (needle : List Char) : List Char → Bool
  | [] => needle.isEmpty
  | c :: rest => needle.isPrefixOf (c :: rest) || containsSub needle rest

/-- Python `needle in hay` on strings (substring containment). -/
def pyContains (hay needle : String) : Bool :=
  containsSub needle.data hay.data

/-- Recursion core of `pyFind`. -/
def pyFindAux (needle : List Char) : List Char → ℕ → Option ℕ
  | [], i => if needle.isEmpty then some i else none
  | c :: rest, i =>
    if needle.isPrefixOf (c :: rest) then some i else pyFindAux needle rest (i + 1)

/-- Python `hay.find(needle)`: index of the leftmost occurrence, `none` for
Python's `-1`. -/
def pyFind (needle hay : String) : Option ℕ :=
  pyFindAux needle.data hay.data 0

/-- Recursion core of `pySplitWs`; `acc` holds the current word reversed. -/
def splitWsAux : List Char → List Char → List (List Char)
  | [], acc => if acc.isEmpty then [] else [acc.reverse]
  | c :: rest, acc =>
    if isSpaceChar c then
      if acc.isEmpty then splitWsAux rest [] else acc.reverse :: splitWsAux rest []
    else
      splitWsAux rest (c :: acc)

/-- Python `s.split()` with no argument: split on runs of whitespace,
discarding empty pieces. -/
def pySplitWs (s : String) : List String :=
  (splitWsAux s.data []).map String.mk

/-- Python `s.strip()`: remove leading and trailing whitespace. -/
def pyStrip (s : String) : String :=
  String.mk (((s.data.dropWhile isSpaceChar).reverse.dropWhile isSpaceChar).reverse)

/-!
## Chunk windower — `ChunkProcessor` (`services/chunk_processor.py`)

`_create_overlapping_chunks` (lines 88–121) is a `while` loop:

    start = 0
    while start < len(messages):
        end = min(start + self.chunk_size, len(messages))
        chunks.append(messages[start:end])
        start = start + self.chunk_size - self.overlap
        if end >= len(messages):
            break

Its termination depends on `chunk_size > overlap`, which `ChunkProcessor`
never validates, so the loop is translated with fuel.  The messages list is
kept generic in `α`; `run_scan` works at message granularity, so the
per-chunk `extract_text_only` rendering is the identity on the slice.
-/

/-- The `while` loop of `ChunkProcessor._create_overlapping_chunks`, one fuel
unit per iteration: `none` means the loop did not finish within `fuel`
iterations.  `msgs[start:end]` is `(msgs.drop start).take (end - start)`. -/
def createChunksFuel (chunkSize overlap : ℕ) (msgs : List α) : ℕ → ℕ → Option (List (List α))
  | _, 0 => none
  | start, fuel + 1 =>
    if start < msgs.length then
      let e := min (start + chunkSize) msgs.length
      let chunk := (msgs.drop start).take (e - start)
      if msgs.length ≤ e then
        some [chunk]
      else
        match createChunksFuel chunkSize overlap msgs (start + chunkSize - overlap) fuel with
        | none => none
        | some rest => some (chunk :: rest)
    else
      some []

/-- `ChunkProcessor._create_overlapping_chunks(messages)`: the empty-input
guard, then the loop from `start = 0`.  Fuel `msgs.length + 1` is enough
whenever `overlap < chunkSize` (the start index then grows every
iteration). -/
def createOverlappingChunks (chunkSize overlap : ℕ) (msgs : List α) : Option (List (List α)) :=
  if msgs.isEmpty then some [] else createChunksFuel chunkSize overlap msgs 0 (msgs.length + 1)

/-- Modelled from the claim's algorithm (spec §4.1): starting at `start = S`
each chunk spans `[start, min (start + C) N)`, the next start is
`start + (C - O)`, and the loop stops once a chunk's end reaches `N`.
Stated as the list of `(start, end)` index pairs. -/
def windowSpans (C O S N : ℕ) : List (ℕ × ℕ) :=
  if _h : S < N ∧ O < C then
    let e := min (S + C) N
    if e < N then (S, e) :: windowSpans C O (S + (C - O)) N else [(S, e)]
  else
    []
termination_by N - S
decreasing_by omega

/-- `ChunkProcessor.get_chunks_to_process` (lines 24–86) at index level, for a
source of `N` messages and checkpoint `S`: returns `(chunks, end_index,
total_messages)` where each chunk is the list of absolute message indices it
covers (`all_messages[start_index:]` is `(List.range N).drop S`).  `none`
again means the chunking loop did not terminate. -/
def getChunksToProcess (C O M S N : ℕ) : Option (List (List ℕ) × ℕ × ℕ) :=
  if N ≤ S then
    some ([], S, N)
  else
    match createOverlappingChunks C O ((List.range N).drop S) with
    | none => none
    | some chunks =>
      if M < chunks.length then
        some (chunks.take M, min (S + M * (C - O)) N, N)
      else
        some (chunks, min N N, N)

/-- The tail of `run_scan` (`api/routes.py` lines 198–314) as it affects the
scan record and the checkpoint: an empty chunk list is recorded as a
completed no-op and leaves the checkpoint at `S`; otherwise the checkpoint
advances to the metadata's `end_index`.  Returns
`(record_status, record_message, new_checkpoint)`. -/
def runScanFromChunks (S : ℕ) (res : List (List ℕ) × ℕ × ℕ) : String × String × ℕ :=
  if res.1.isEmpty then
    ("completed", "No new messages to scan (checkpoint up to date)", S)
  else
    ("completed", "", res.2.1)

/-- `run_scan` composed with `get_chunks_to_process`, at index level. -/
def runScanModel (C O M S N : ℕ) : Option (String × String × ℕ) :=
  (getChunksToProcess C O M S N).map (runScanFromChunks S)

/-!
## Entities

A candidate entity is a Python dict; the keys the pipeline reads and writes
are modelled as `Option` fields (`none` = key absent or `null`), any other
string-valued key as an entry of `extra`.
-/

/-- A candidate/merged entity dict. -/
structure Entity where
  name : Option String := none
  description : Option String := none
  confidence : Option ℚ := none
  mentions : Option ℕ := none
  sourceContext : Option String := none
  hallucinationRisk : Option ℚ := none
  hallucinationReasons : Option (List String) := none
  flagged : Option Bool := none
  flagReason : Option String := none
  extra : List (String × String) := []
deriving DecidableEq, Repr

/-!
## Plausibility filter — `HallucinationDetector`
(`services/hallucination_detector.py`)

The three suspicious-name regular expressions are evaluated with
`re.search` on `name.lower()`.  Because `\w` and `\s` match disjoint
character sets, greedy matching of `\s+`/`\w+` runs never needs
backtracking, so each pattern is translated as a deterministic scan.
-/

/-- A word boundary `\b` immediately after a word character: the rest of the
string is empty or starts with a non-word character. -/
def boundaryAfter : List Char → Bool
  | [] => true
  | c :: _ => !isWordChar c

/-- Try a position-matcher at every position whose preceding character is a
word boundary (all three patterns start with a word character, so `\b`
holds exactly at the start and after a non-word character). -/
def searchBdy (p : List Char → Bool) : Bool → List Char → Bool
  | _, [] => false
  | bdy, c :: rest => (bdy && p (c :: rest)) || searchBdy p (!isWordChar c) rest

/-- `r'\bthe (great|mighty|terrible|magnificent|dread)\b'` at one position. -/
def pat1At (l : List Char) : Bool :=
  "the ".data.isPrefixOf l &&
    (["great", "mighty", "terrible", "magnificent", "dread"].map String.data).any
      (fun a => a.isPrefixOf (l.drop 4) && boundaryAfter ((l.drop 4).drop a.length))

/-- `re.search` of the first suspicious pattern. -/
def searchPat1 (l : List Char) : Bool :=
  searchBdy pat1At true l

/-- `r'\b(king|queen|lord|duke|baron)\s+\w+\s+(the|of)\b'` at one position. -/
def pat2At (l : List Char) : Bool :=
  (["king", "queen", "lord", "duke", "baron"].map String.data).any fun t =>
    t.isPrefixOf l &&
      (let r1 := l.drop t.length
       !(r1.takeWhile isSpaceChar).isEmpty &&
         (let r2 := r1.dropWhile isSpaceChar
          !(r2.takeWhile isWordChar).isEmpty &&
            (let r3 := r2.dropWhile isWordChar
             !(r3.takeWhile isSpaceChar).isEmpty &&
               (let r4 := r3.dropWhile isSpaceChar
                ("the".data.isPrefixOf r4 && boundaryAfter (r4.drop 3)) ||
                  ("of".data.isPrefixOf r4 && boundaryAfter (r4.drop 2))))))

/-- `re.search` of the second suspicious pattern. -/
def searchPat2 (l : List Char) : Bool :=
  searchBdy pat2At true l

/-- The number of maximal runs of word characters; the flag says whether the
previous character was a word character. -/
def wordRunsAux : Bool → List Char → ℕ
  | _, [] => 0
  | inWord, c :: rest =>
    if isWordChar c then
      if inWord then wordRunsAux true rest else 1 + wordRunsAux true rest
    else
      wordRunsAux false rest

/-- `re.search` of `r'^\w+(\s+\w+){4,}$'`: anchored, so it matches exactly
when the whole string consists of word and whitespace characters only,
starts and ends with a word character, and has at least five maximal word
runs. -/
def searchPat3 (l : List Char) : Bool :=
  !l.isEmpty && l.all (fun c => isWordChar c || isSpaceChar c) &&
    (match l with | [] => false | c :: _ => isWordChar c) &&
    (match l.getLast? with | some c => isWordChar c | none => false) &&
    5 ≤ wordRunsAux false l

/-- The literal text of the first suspicious pattern (used in reasons). -/
def pat1Text : String := "\\bthe (great|mighty|terrible|magnificent|dread)\\b"

/-- The literal text of the second suspicious pattern. -/
def pat2Text : String := "\\b(king|queen|lord|duke|baron)\\s+\\w+\\s+(the|of)\\b"

/-- The literal text of the third suspicious pattern. -/
def pat3Text : String := "^\\w+(\\s+\\w+)\x7b4,\x7d$"

/-- `HallucinationDetector._name_in_source` (lines 87–106): exact
(case-insensitive) substring match, else at least half of the significant
(length > 3) words of the name occur in the source.  Python's
`found >= len(significant_words) / 2` is true division of integers, which is
exact, so it is `len ≤ 2 * found`. -/
def nameInSource (name source : String) : Bool :=
  let nameLower := pyLower name
  let sourceLower := pyLower source
  if pyContains sourceLower nameLower then
    true
  else
    let significantWords := (pySplitWs nameLower).filter (fun w => 3 < w.length)
    if significantWords.isEmpty then
      false
    else
      let found := (significantWords.filter (fun w => pyContains sourceLower w)).length
      decide (significantWords.length ≤ 2 * found)

/-- Check 1 of `check_entity`: the name (or enough of its words) is absent
from the source text. -/
def check1Fires (entity : Entity) (sourceText : String) : Bool :=
  !nameInSource (entity.name.getD "") sourceText

/-- First suspicious pattern hit on the lowercased name. -/
def suspicious1 (entity : Entity) : Bool :=
  searchPat1 (pyLower (entity.name.getD "")).data

/-- Second suspicious pattern hit on the lowercased name. -/
def suspicious2 (entity : Entity) : Bool :=
  searchPat2 (pyLower (entity.name.getD "")).data

/-- Third suspicious pattern hit on the lowercased name. -/
def suspicious3 (entity : Entity) : Bool :=
  searchPat3 (pyLower (entity.name.getD "")).data

/-- Check 3 of `check_entity`: `source_lower.count(name_lower)`. -/
def mentionsInSource (entity : Entity) (sourceText : String) : ℕ :=
  pyCountStr (pyLower (entity.name.getD "")) (pyLower sourceText)

/-- The cumulative `risk_score` of `check_entity` (lines 30–70), before the
`min(1.0, ·)` cap: checks 1–4 in the code's order. -/
def rawRiskScore (entity : Entity) (sourceText : String) : ℚ :=
  (if check1Fires entity sourceText then 1/2 else 0) +
    ((if suspicious1 entity then 3/10 else 0) + (if suspicious2 entity then 3/10 else 0) +
      (if suspicious3 entity then 3/10 else 0)) +
    (if mentionsInSource entity sourceText = 0 then 2/5
     else if mentionsInSource entity sourceText = 1 ∧
         200 < (entity.description.getD "").length then 1/5
     else 0) +
    (if 9/10 < entity.confidence.getD (1/2) ∧ 300 < (entity.description.getD "").length ∧
        mentionsInSource entity sourceText < 3 then 1/5
     else 0)

/-- The `reasons` list `check_entity` accumulates, in the code's order. -/
def checkReasons (entity : Entity) (sourceText : String) : List String :=
  (if check1Fires entity sourceText then ["Name not found in source text"] else []) ++
    ((if suspicious1 entity then ["Suspicious pattern in name: " ++ pat1Text] else []) ++
      (if suspicious2 entity then ["Suspicious pattern in name: " ++ pat2Text] else []) ++
        (if suspicious3 entity then ["Suspicious pattern in name: " ++ pat3Text] else [])) ++
    (if mentionsInSource entity sourceText = 0 then ["Entity name never mentioned"]
     else if mentionsInSource entity sourceText = 1 ∧
         200 < (entity.description.getD "").length then ["Very detailed despite single mention"]
     else []) ++
    (if 9/10 < entity.confidence.getD (1/2) ∧ 300 < (entity.description.getD "").length ∧
        mentionsInSource entity sourceText < 3 then ["Suspiciously detailed for mentions count"]
     else [])

/-- `HallucinationDetector.check_entity` (lines 24–85): store
`hallucination_risk = min(1.0, risk_score)` and the reasons; when the raw
score exceeds 0.5, cap `confidence` at 0.6 and set `flagged` with a
human-readable reason. -/
def checkEntity (entity : Entity) (sourceText : String) : Entity :=
  let riskScore := rawRiskScore entity sourceText
  let e1 := { entity with
    hallucinationRisk := some (min 1 riskScore)
    hallucinationReasons := some (checkReasons entity sourceText) }
  if 1/2 < riskScore then
    { e1 with
      confidence := some (min (entity.confidence.getD (1/2)) (6/10))
      flagged := some true
      flagReason := some ("Possible hallucination: " ++
        String.intercalate ", " (checkReasons entity sourceText)) }
  else
    e1

/-- `HallucinationDetector.filter_hallucinations` (lines 108–137): per entity
type, keep (checked) entities whose stored risk is strictly below the
threshold; the appending loop is a `filterMap`. -/
def filterHallucinations (entities : List (String × List Entity)) (sourceText : String)
    (threshold : ℚ) : List (String × List Entity) :=
  entities.map fun p =>
    (p.1, p.2.filterMap fun entity =>
      let checked := checkEntity entity sourceText
      if checked.hallucinationRisk.getD 0 < threshold then some checked else none)

/-!
## Per-scan merge — `run_scan` (`api/routes.py` lines 244–257)

The accumulator `all_entities` maps each entity type to a list; candidates
of different types never interact, so the fold is modelled on one type's
list.  On a (case-insensitive) name collision the code runs
`existing.update(entity)` when the incoming confidence is strictly greater
and otherwise leaves the accumulator unchanged.
-/

/-- Python `existing.update(entity)` on the modelled keys: a key present in
`entity` overwrites, a key absent from `entity` keeps the old value. -/
def pyDictUpdate (old new : Entity) : Entity where
  name := match new.name with | some v => some v | none => old.name
  description := match new.description with | some v => some v | none => old.description
  confidence := match new.confidence with | some v => some v | none => old.confidence
  mentions := match new.mentions with | some v => some v | none => old.mentions
  sourceContext := match new.sourceContext with | some v => some v | none => old.sourceContext
  hallucinationRisk :=
    match new.hallucinationRisk with | some v => some v | none => old.hallucinationRisk
  hallucinationReasons :=
    match new.hallucinationReasons with | some v => some v | none => old.hallucinationReasons
  flagged := match new.flagged with | some v => some v | none => old.flagged
  flagReason := match new.flagReason with | some v => some v | none => old.flagReason
  extra :=
    old.extra.map (fun kv => (new.extra.find? (fun kv2 => kv2.1 == kv.1)).getD kv) ++
      new.extra.filter (fun kv2 => !old.extra.any (fun kv => kv.1 == kv2.1))

/-- The collision test of `run_scan`:
`e.get('name', '').lower() == entity.get('name', '').lower()`. -/
def sameNameAs (entity e : Entity) : Bool :=
  pyLower (e.name.getD "") == pyLower (entity.name.getD "")

/-- In-place update of the first list element satisfying `p`. -/
def replaceFirstBy (p : Entity → Bool) (r : Entity → Entity) : List Entity → List Entity
  | [] => []
  | e :: rest => if p e then r e :: rest else e :: replaceFirstBy p r rest

/-- One candidate folded into the accumulator (`api/routes.py` lines
246–257): find the first same-named entry; overwrite it in place when the
incoming confidence is strictly greater, else drop the candidate; append
when there is no collision. -/
def mergeCandidate (acc : List Entity) (entity : Entity) : List Entity :=
  match acc.find? (sameNameAs entity) with
  | none => acc ++ [entity]
  | some existing =>
    if existing.confidence.getD 0 < entity.confidence.getD 0 then
      replaceFirstBy (sameNameAs entity) (fun e => pyDictUpdate e entity) acc
    else
      acc

/-- One chunk's candidate batch folded into the accumulator. -/
def mergeBatch (acc batch : List Entity) : List Entity :=
  batch.foldl mergeCandidate acc

/-- A whole scan's fold, chunk by chunk, starting from the empty
accumulator. -/
def mergeBatches (batches : List (List Entity)) : List Entity :=
  batches.foldl mergeBatch []

/-!
## Extractor validation — `EntityExtractor` (`services/entity_extractor.py`)
-/

/-- `EntityExtractor._count_mentions` (lines 162–178): occurrences of the
lowercased name in the space-joined lowercased messages, plus occurrences of
each substantial (length > 3) word of a multi-word name; at least 1. -/
def countMentions (name : String) (messages : List String) : ℕ :=
  let text := pyLower (String.intercalate " " messages)
  let nameLower := pyLower name
  let count := pyCountStr nameLower text
  let count :=
    if pyContains name " " then
      (((pySplitWs name).filter (fun part => 3 < part.length)).map
        (fun part => pyCountStr (pyLower part) text)).foldl (· + ·) count
    else
      count
  max 1 count

/-- `EntityExtractor._find_context` (lines 180–203): the first message whose
lowercase form contains the lowercase name yields a `context_chars` window
around the occurrence, with ellipses when truncated; otherwise
`"Mentioned: {name}"`.  `lower()` preserves length, so the index found in
the lowered message slices the original one. -/
def findContextAux (name : String) (contextChars : ℕ) : List String → String
  | [] => "Mentioned: " ++ name
  | message :: rest =>
    match pyFind (pyLower name) (pyLower message) with
    | some pos =>
      let start := pos - contextChars / 2
      let e := min message.length (pos + name.length + contextChars / 2)
      let snippet := String.mk ((message.data.drop start).take (e - start))
      let snippet := if 0 < start then "..." ++ snippet else snippet
      if e < message.length then snippet ++ "..." else snippet
    | none => findContextAux name contextChars rest

/-- Python truthiness of `v and str(v).strip()` for each modelled key that is
present, as `_estimate_confidence` counts filled fields. -/
def countTruthy (e : Entity) : ℕ :=
  (match e.name with | some s => if pyStrip s == "" then 0 else 1 | none => 0) +
  (match e.description with | some s => if pyStrip s == "" then 0 else 1 | none => 0) +
  (match e.confidence with | some q => if q = 0 then 0 else 1 | none => 0) +
  (match e.mentions with | some m => if m = 0 then 0 else 1 | none => 0) +
  (match e.sourceContext with | some s => if pyStrip s == "" then 0 else 1 | none => 0) +
  (match e.hallucinationRisk with | some q => if q = 0 then 0 else 1 | none => 0) +
  (match e.hallucinationReasons with | some rs => if rs.isEmpty then 0 else 1 | none => 0) +
  (match e.flagged with | some b => if b then 1 else 0 | none => 0) +
  (match e.flagReason with | some s => if pyStrip s == "" then 0 else 1 | none => 0) +
  (e.extra.filter (fun kv => !(pyStrip kv.2 == ""))).length

/-- `EntityExtractor._estimate_confidence` (lines 144–160). -/
def estimateConfidence (entity : Entity) (messages : List String) : ℚ :=
  let descBonus : ℚ :=
    if (match entity.description with | some s => 20 < s.length | none => false : Bool)
    then 1/5 else 0
  let fieldBonus : ℚ := min (1/5) (countTruthy entity * (1/20))
  let mentionBonus : ℚ := min (1/10) (countMentions (entity.name.getD "") messages * (3/100))
  min 1 (1/2 + descBonus + fieldBonus + mentionBonus)

/-- One entity through `EntityExtractor._validate_entities` (lines 120–140):
nameless candidates are dropped; a missing or `null` confidence is
estimated, then clamped into `[0, 1]`; a missing `mentions` key is counted
from the source (the count is at least 1); a missing `source_context` is
filled in. -/
def validateEntity (messages : List String) (entity : Entity) : Option Entity :=
  match entity.name with
  | none => none
  | some s =>
    if s = "" then
      none
    else
      let conf0 := match entity.confidence with
        | none => estimateConfidence entity messages
        | some c => c
      let ment := match entity.mentions with
        | some m => some m
        | none => some (countMentions s messages)
      let ctx := match entity.sourceContext with
        | some c => some c
        | none => some (findContextAux s 100 messages)
      some { entity with
        confidence := some (max 0 (min 1 conf0))
        mentions := ment
        sourceContext := ctx }

/-- The six entity-type keys `_validate_entities` initializes. -/
def entityTypeKeys : List String :=
  ["npcs", "factions", "locations", "items", "aliases", "stats"]

/-- `EntityExtractor._validate_entities` (lines 97–142): for each of the six
type keys, validate the entities listed under that key of the oracle's
response (an absent key contributes an empty list). -/
def validateEntities (entities : List (String × List Entity)) (messages : List String) :
    List (String × List Entity) :=
  entityTypeKeys.map fun t =>
    (t, match entities.find? (fun p => p.1 == t) with
        | some p => p.2.filterMap (validateEntity messages)
        | none => [])

/-!
## Scan lock — `ScanLockManager` (`utils/scan_lock.py`)

Timestamps are modelled in whole seconds.  Python's
`(datetime.now() - ts).seconds` is the seconds *component* of the
normalized timedelta — for a non-negative whole-second duration, the total
duration modulo 86400 — not `total_seconds()`.
-/

/-- Python `timedelta.seconds` of a non-negative whole-second duration. -/
def timedeltaSeconds (elapsed : ℕ) : ℕ :=
  elapsed % 86400

/-- `ScanLockManager.acquire_scan_lock` (lines 16–33): refuse when the file
holds a lock whose `elapsed` seconds-component is under 1800; otherwise
(re)take the lock stamped `now`.  Returns (acquired, new lock table). -/
def acquireScanLock (activeScans : List (String × ℕ)) (chatFile : String) (now : ℕ) :
    Bool × List (String × ℕ) :=
  match activeScans.find? (fun p => p.1 == chatFile) with
  | some p =>
    if timedeltaSeconds (now - p.2) < 1800 then
      (false, activeScans)
    else
      (true, activeScans.filter (fun q => !(q.1 == chatFile)) ++ [(chatFile, now)])
  | none => (true, activeScans ++ [(chatFile, now)])

/-- `ScanLockManager.release_scan_lock` (lines 35–39). -/
def releaseScanLock (activeScans : List (String × ℕ)) (chatFile : String) :
    List (String × ℕ) :=
  activeScans.filter (fun q => !(q.1 == chatFile))

/-!
## Concrete test fixtures

The entities of spec §8's merge-conflict scenario and small candidates used
to instantiate the theorems below.
-/

/-- The lower-confidence "Marcus" candidate of spec §8. -/
def marcusOld : Entity :=
  { name := some "Marcus", description := some "a guard",
    confidence := some (2/5), mentions := some 1 }

/-- The higher-confidence "Marcus" candidate of spec §8. -/
def marcusNew : Entity :=
  { name := some "Marcus", description := some "at the east gate",
    confidence := some (9/10), mentions := some 1 }

/-- A non-colliding candidate. -/
def eastGate : Entity :=
  { name := some "East Gate", confidence := some (4/5) }

/-- A candidate colliding with `bobBeta` at equal confidence. -/
def bobAlpha : Entity :=
  { name := some "Bob", description := some "alpha", confidence := some (1/2) }

/-- A candidate colliding with `bobAlpha` at equal confidence. -/
def bobBeta : Entity :=
  { name := some "Bob", description := some "beta", confidence := some (1/2) }

/-- A candidate whose name hits the first suspicious-title pattern. -/
def greatFoo : Entity :=
  { name := some "the great foo", confidence := some (1/2) }

/-- A minimal candidate whose name occurs in its source text. -/
def marcusBare : Entity :=
  { name := some "marcus" }

/-- A minimal candidate whose name occurs nowhere. -/
def ghostBare : Entity :=
  { name := some "ghost" }

/-- An oracle candidate that reports `mentions = 0` itself. -/
def bobZeroMentions : Entity :=
  { name := some "Bob", confidence := some (1/2), mentions := some 0 }

/-!
## Windower lemmas
-/

lemma windowSpans_eq (C O S N : ℕ) :
    windowSpans C O S N =
      if S < N ∧ O < C then
        if min (S + C) N < N then (S, min (S + C) N) :: windowSpans C O (S + (C - O)) N
        else [(S, min (S + C) N)]
      else [] := by
  rw [windowSpans]
  by_cases h : S < N ∧ O < C <;> simp [h]

lemma createChunksFuel_eq_spans {α : Type} {C O : ℕ} (hCO : O < C) (msgs : List α) :
    ∀ fuel start, 0 < fuel → msgs.length < start + fuel →
      createChunksFuel C O msgs start fuel =
        some ((windowSpans C O start msgs.length).map
          (fun p => (msgs.drop p.1).take (p.2 - p.1))) := by
  intro fuel
  induction fuel with
  | zero => intro start h0 _; exact absurd h0 (by norm_num)
  | succ fuel ih =>
    intro start _ hlen
    rw [windowSpans_eq]
    by_cases hs : start < msgs.length
    · rw [if_pos ⟨hs, hCO⟩]
      simp only [createChunksFuel]
      rw [if_pos hs]
      by_cases hend : msgs.length ≤ min (start + C) msgs.length
      · rw [if_pos hend, if_neg (not_lt.mpr hend)]
        simp
      · have hlt : min (start + C) msgs.length < msgs.length := not_le.mp hend
        rw [if_neg hend, if_pos hlt]
        have harith : start + C - O = start + (C - O) := by omega
        have hCle : start + C < msgs.length := by omega
        rw [harith, ih (start + (C - O)) (by omega) (by omega)]
        simp
    · have hno : ¬(start < msgs.length ∧ O < C) := fun hc => hs hc.1
      rw [if_neg hno]
      simp only [createChunksFuel]
      rw [if_neg hs]
      simp

lemma windowSpans_end_le_aux (C O N : ℕ) :
    ∀ (k S : ℕ), N - S ≤ k → ∀ p ∈ windowSpans C O S N, p.2 ≤ N := by
  intro k
  induction k with
  | zero =>
    intro S hk p hp
    rw [windowSpans_eq, if_neg (by rintro ⟨h1, _⟩; omega)] at hp
    exact absurd hp (List.not_mem_nil p)
  | succ k ih =>
    intro S hk p hp
    rw [windowSpans_eq] at hp
    by_cases hc : S < N ∧ O < C
    · rw [if_pos hc] at hp
      by_cases hlt : min (S + C) N < N
      · rw [if_pos hlt] at hp
        rcases List.mem_cons.mp hp with rfl | hp
        · exact min_le_right _ _
        · exact ih (S + (C - O)) (by omega) p hp
      · rw [if_neg hlt] at hp
        rcases List.mem_singleton.mp hp with rfl
        exact min_le_right _ _
    · rw [if_neg hc] at hp
      exact absurd hp (List.not_mem_nil p)

lemma windowSpans_end_le (C O S N : ℕ) : ∀ p ∈ windowSpans C O S N, p.2 ≤ N :=
  windowSpans_end_le_aux C O N (N - S) S le_rfl

lemma windowSpans_shift (C O T : ℕ) :
    ∀ (k S N : ℕ), N - S ≤ k → S ≤ N →
      windowSpans C O (T + S) (T + N) =
        (windowSpans C O S N).map (fun p => (T + p.1, T + p.2)) := by
  intro k
  induction k with
  | zero =>
    intro S N hk hSN
    rw [windowSpans_eq C O (T + S) (T + N), windowSpans_eq C O S N,
      if_neg (by rintro ⟨h1, _⟩; omega : ¬(T + S < T + N ∧ O < C)),
      if_neg (by rintro ⟨h1, _⟩; omega : ¬(S < N ∧ O < C))]
    rfl
  | succ k ih =>
    intro S N hk hSN
    rw [windowSpans_eq C O (T + S) (T + N), windowSpans_eq C O S N]
    by_cases hc : S < N ∧ O < C
    · rw [if_pos (⟨by omega, hc.2⟩ : T + S < T + N ∧ O < C), if_pos hc]
      have hmin : min (T + S + C) (T + N) = T + min (S + C) N := by omega
      rw [hmin]
      by_cases hlt : min (S + C) N < N
      · rw [if_pos hlt, if_pos (by omega : T + min (S + C) N < T + N)]
        have hSC : S + C < N := by omega
        have harith : T + S + (C - O) = T + (S + (C - O)) := by omega
        rw [harith, ih (S + (C - O)) N (by omega) (by omega)]
        simp
      · rw [if_neg hlt, if_neg (by omega : ¬(T + min (S + C) N < T + N))]
        rfl
    · rw [if_neg (by rintro ⟨h1, h2⟩; exact hc ⟨by omega, h2⟩ : ¬(T + S < T + N ∧ O < C)),
        if_neg hc]
      rfl

lemma range'_drop : ∀ (n m s : ℕ), (List.range' s n).drop m = List.range' (s + m) (n - m) := by
  intro n
  induction n with
  | zero => intro m s; simp
  | succ n ih =>
    intro m s
    cases m with
    | zero => simp
    | succ m =>
      rw [List.range'_succ, List.drop_succ_cons, ih m (s + 1)]
      congr 1 <;> omega

lemma range'_take : ∀ (n m s : ℕ), (List.range' s n).take m = List.range' s (min m n) := by
  intro n
  induction n with
  | zero => intro m s; simp
  | succ n ih =>
    intro m s
    cases m with
    | zero => simp
    | succ m =>
      rw [List.range'_succ, List.take_succ_cons, ih m (s + 1)]
      have hmin : min (m + 1) (n + 1) = min m n + 1 := by omega
      rw [hmin, List.range'_succ]

lemma range_drop (N S : ℕ) : (List.range N).drop S = List.range' S (N - S) := by
  rw [List.range_eq_range', range'_drop]
  simp

/-- C3: for any message count `N`, checkpoint `S < N` and configuration
`O < C`, the windower run on the unread suffix produces exactly the chunks
described by `windowSpans` — spans `[start, min (start + C) N)` starting at
`S`, each next start `C - O` further, stopping once a chunk's end reaches
`N` — and no span's end exceeds `N`.  The function is deterministic by
construction.  Concretely (see the witness), 47 messages with
`chunk_size = 20`, `overlap = 5`, checkpoint 0 yield `[0,20)`, `[15,35)`,
`[30,47)`. -/
theorem createOverlappingChunks_eq_windowSpans (C O S N : ℕ) (hCO : O < C) (hSN : S < N) :
    createOverlappingChunks C O ((List.range N).drop S) =
        some ((windowSpans C O S N).map (fun p => List.range' p.1 (p.2 - p.1))) ∧
      ∀ p ∈ windowSpans C O S N, p.2 ≤ N := by
  refine ⟨?_, windowSpans_end_le C O S N⟩
  have hlen : ((List.range N).drop S).length = N - S := by simp
  have hne : ¬((List.range N).drop S).isEmpty = true := by
    rw [List.isEmpty_iff]
    intro he
    have := congrArg List.length he
    rw [hlen] at this
    simp at this
    omega
  unfold createOverlappingChunks
  rw [if_neg hne, hlen,
    createChunksFuel_eq_spans hCO ((List.range N).drop S) ((N - S) + 1) 0 (by omega) (by omega),
    hlen]
  congr 1
  have hshift := windowSpans_shift C O S (N - S) 0 (N - S) le_rfl (by omega)
  rw [show S + 0 = S from rfl, show S + (N - S) = N by omega] at hshift
  rw [hshift, List.map_map]
  apply List.map_congr_left
  intro p hp
  have hp2 : p.2 ≤ N - S := windowSpans_end_le C O 0 (N - S) p hp
  simp only [Function.comp]
  rw [range_drop, range'_drop, range'_take]
  congr 1
  omega

/-- C3 witness: the spec's concrete scenario — 47 messages, `chunk_size = 20`,
`overlap = 5`, checkpoint 0 — yields exactly the chunks `[0,20)`, `[15,35)`,
`[30,47)`. -/
theorem createOverlappingChunks_concrete_47_20_5 :
    createOverlappingChunks 20 5 ((List.range 47).drop 0) =
        some [List.range' 0 20, List.range' 15 20, List.range' 30 17] ∧
      windowSpans 20 5 0 47 = [(0, 20), (15, 35), (30, 47)] := by
  have h := createOverlappingChunks_eq_windowSpans 20 5 0 47 (by norm_num) (by norm_num)
  have hspans : windowSpans 20 5 0 47 = [(0, 20), (15, 35), (30, 47)] := by
    rw [windowSpans_eq]
    norm_num
    rw [windowSpans_eq]
    norm_num
    rw [windowSpans_eq]
    norm_num
  refine ⟨?_, hspans⟩
  rw [h.1, hspans]
  rfl

/-- C4 is a code bug: `ChunkProcessor.__init__` performs no validation, and
with `chunk_size = overlap` (here 5 = 5) on a source of six unread messages
`_create_overlapping_chunks` loops forever — `start` never advances — so no
configuration error is raised and the loop never terminates: the translated
loop runs out of any amount of fuel. -/
theorem createChunks_no_fail_fast (fuel : ℕ) :
    createChunksFuel 5 5 (List.range 6) 0 fuel = none := by
  induction fuel with
  | zero => rfl
  | succ fuel ih => simp [createChunksFuel, ih]

/-- C7: with a valid configuration (`O < C`) and a checkpoint within the
source (`S ≤ N`), `run_scan` completes and the checkpoint it leaves behind
is at least its old value `S` and at most the total message count `N` —
whether the scan was a no-op, was truncated by `max_chunks`, or consumed
everything. -/
theorem checkpoint_monotone_bounded (C O M S N : ℕ) (hCO : O < C) (hSN : S ≤ N) :
    ∃ msg cp, runScanModel C O M S N = some ("completed", msg, cp) ∧ S ≤ cp ∧ cp ≤ N := by
  unfold runScanModel getChunksToProcess
  by_cases hns : N ≤ S
  · refine ⟨"No new messages to scan (checkpoint up to date)", S, ?_, le_rfl, hSN⟩
    rw [if_pos hns]
    rfl
  · have hlen : ((List.range N).drop S).length = N - S := by simp
    have hne : ¬((List.range N).drop S).isEmpty = true := by
      rw [List.isEmpty_iff]
      intro he
      have := congrArg List.length he
      rw [hlen] at this
      simp at this
      omega
    rw [if_neg hns]
    unfold createOverlappingChunks
    rw [if_neg hne, hlen,
      createChunksFuel_eq_spans hCO ((List.range N).drop S) ((N - S) + 1) 0 (by omega)
        (by omega)]
    dsimp only
    set chunks := (windowSpans C O 0 ((List.range N).drop S).length).map
      (fun p => (((List.range N).drop S).drop p.1).take (p.2 - p.1)) with hchunks
    by_cases htr : M < chunks.length
    · rw [if_pos htr]
      by_cases hemp : (chunks.take M).isEmpty
      · refine ⟨"No new messages to scan (checkpoint up to date)", S, ?_, le_rfl, hSN⟩
        simp [runScanFromChunks, hemp]
      · refine ⟨"", min (S + M * (C - O)) N, ?_, ?_, min_le_right _ _⟩
        · simp [runScanFromChunks, hemp]
        · exact le_min (Nat.le_add_right S _) hSN
    · rw [if_neg htr]
      by_cases hemp : chunks.isEmpty
      · refine ⟨"No new messages to scan (checkpoint up to date)", S, ?_, le_rfl, hSN⟩
        simp [runScanFromChunks, hemp]
      · refine ⟨"", min N N, ?_, ?_, ?_⟩
        · simp [runScanFromChunks, hemp]
        · simpa using hSN
        · simp

/-- C7 witness: the concrete scenario (`C = 20`, `O = 5`, `M = 10`, `S = 0`,
`N = 47`) completes with a checkpoint between 0 and 47. -/
theorem checkpoint_monotone_bounded_witness :
    ∃ msg cp, runScanModel 20 5 10 0 47 = some ("completed", msg, cp) ∧ 0 ≤ cp ∧ cp ≤ 47 :=
  checkpoint_monotone_bounded 20 5 10 0 47 (by norm_num) (by norm_num)

/-- C8: when the checkpoint is at or past the end of the source (`N ≤ S`),
the pipeline produces zero chunks, records the run as a successful no-op
completion with the code's message, and leaves the checkpoint at `S`;
running it again from the checkpoint it left behind gives the same result. -/
theorem noop_scan_idempotent (C O M S N : ℕ) (h : N ≤ S) :
    getChunksToProcess C O M S N = some ([], S, N) ∧
      runScanModel C O M S N =
        some ("completed", "No new messages to scan (checkpoint up to date)", S) ∧
      runScanModel C O M (((runScanModel C O M S N).map (fun r => r.2.2)).getD S) N =
        runScanModel C O M S N := by
  have h1 : getChunksToProcess C O M S N = some ([], S, N) := by
    unfold getChunksToProcess
    rw [if_pos h]
  have h2 : runScanModel C O M S N =
      some ("completed", "No new messages to scan (checkpoint up to date)", S) := by
    unfold runScanModel
    rw [h1]
    rfl
  refine ⟨h1, h2, ?_⟩
  rw [h2]
  exact h2

/-- C8 witness: a source of 5 messages already scanned up to 5 is a recorded
no-op that leaves the checkpoint at 5, twice. -/
theorem noop_scan_idempotent_witness :
    getChunksToProcess 3 1 10 5 5 = some ([], 5, 5) ∧
      runScanModel 3 1 10 5 5 =
        some ("completed", "No new messages to scan (checkpoint up to date)", 5) ∧
      runScanModel 3 1 10 (((runScanModel 3 1 10 5 5).map (fun r => r.2.2)).getD 5) 5 =
        runScanModel 3 1 10 5 5 :=
  noop_scan_idempotent 3 1 10 5 5 (by norm_num)

/-!
## Merge lemmas
-/

lemma sameNameAs_pyDictUpdate (entity x : Entity) (hx : sameNameAs entity x = true) :
    sameNameAs entity (pyDictUpdate x entity) = true := by
  unfold sameNameAs at hx ⊢
  unfold pyDictUpdate
  cases hn : entity.name with
  | none => simpa [hn] using hx
  | some s => simp [hn]

lemma find?_replaceFirstBy (p : Entity → Bool) (r : Entity → Entity) :
    ∀ (l : List Entity) (x : Entity), l.find? p = some x → p (r x) = true →
      (replaceFirstBy p r l).find? p = some (r x) := by
  intro l
  induction l with
  | nil => intro x hx _; simp at hx
  | cons e rest ih =>
    intro x hx hr
    by_cases hpe : p e = true
    · rw [List.find?_cons_of_pos _ hpe] at hx
      obtain rfl : e = x := by injection hx
      unfold replaceFirstBy
      rw [if_pos hpe, List.find?_cons_of_pos _ hr]
    · rw [List.find?_cons_of_neg _ (by simpa using hpe)] at hx
      unfold replaceFirstBy
      rw [if_neg hpe, List.find?_cons_of_neg _ (by simpa using hpe)]
      exact ih x hx hr

/-- C1 (amended): when `run_scan` folds a candidate that collides with an
already-merged entity (same type list, case-insensitively equal name) and
both carry a confidence, the retained entry is the incoming candidate's
dict-update of the old one if the incoming confidence is strictly greater
and the unchanged old entry otherwise; its confidence is the maximum of the
two.  Descriptions are not concatenated and mention counts are not summed
(see the counterexample). -/
theorem mergeCandidate_collision_max_confidence
    (acc : List Entity) (entity old : Entity) (qe qo : ℚ)
    (hfind : acc.find? (sameNameAs entity) = some old)
    (he : entity.confidence = some qe) (ho : old.confidence = some qo) :
    (mergeCandidate acc entity).find? (sameNameAs entity) =
        some (if qo < qe then pyDictUpdate old entity else old) ∧
      ((mergeCandidate acc entity).find? (sameNameAs entity)).map (fun r => r.confidence) =
        some (some (max qo qe)) := by
  have hold : sameNameAs entity old = true := List.find?_some hfind
  unfold mergeCandidate
  rw [hfind]
  simp only [ho, he, Option.getD_some]
  by_cases hlt : qo < qe
  · rw [if_pos hlt, if_pos hlt,
      find?_replaceFirstBy (sameNameAs entity) (fun e => pyDictUpdate e entity) acc old hfind
        (sameNameAs_pyDictUpdate entity old hold)]
    refine ⟨rfl, ?_⟩
    simp [pyDictUpdate, he, max_eq_right (le_of_lt hlt)]
  · rw [if_neg hlt, if_neg hlt, hfind]
    refine ⟨rfl, ?_⟩
    simp [ho, max_eq_left (not_lt.mp hlt)]

/-- C1 witness: the spec §8 "Marcus" pair, folded into an accumulator
holding the low-confidence candidate: the retained entry is the dict-update
and its confidence is `max 0.4 0.9 = 0.9`. -/
theorem mergeCandidate_collision_max_confidence_witness :
    (mergeCandidate [marcusOld] marcusNew).find? (sameNameAs marcusNew) =
        some (if (2/5 : ℚ) < 9/10 then pyDictUpdate marcusOld marcusNew else marcusOld) ∧
      ((mergeCandidate [marcusOld] marcusNew).find? (sameNameAs marcusNew)).map
          (fun r => r.confidence) = some (some (max (2/5 : ℚ) (9/10))) :=
  mergeCandidate_collision_max_confidence [marcusOld] marcusNew marcusOld (9/10) (2/5)
    (by decide) rfl rfl

/-- C1 counterexample: folding the higher-confidence "Marcus" of spec §8
into an accumulator holding the lower-confidence one overwrites the
description wholesale and keeps `mentions = 1`: the result is not the
claimed concatenation `"a guard at the east gate"` with summed
`mention_count = 2`. -/
theorem mergeCandidate_no_concat_no_sum :
    (mergeCandidate [marcusOld] marcusNew).map (fun r => (r.description, r.mentions)) =
        [(some "at the east gate", some 1)] ∧
      ¬(mergeCandidate [marcusOld] marcusNew).map (fun r => (r.description, r.mentions)) =
        [(some "a guard at the east gate", some 2)] := by
  decide

/-- C2 (amended): `run_scan`'s fold is order-dependent in general — on a
collision at equal confidence whichever batch arrived first wins wholesale
(see the counterexample) — but for the deliberate one-collision scenario
whose colliding candidates carry distinct confidences and full attribute
sets, merging `[A, B]` then `[C]` equals merging `[C, A, B]`. -/
theorem mergeBatches_concrete_order_invariant :
    mergeBatches [[marcusOld], [eastGate], [marcusNew]] =
      mergeBatches [[marcusNew], [marcusOld], [eastGate]] := by
  decide

/-- C2 counterexample: two equal-confidence candidates with different
descriptions collide; whichever batch is folded first wins, so the two fold
orders give different merged sets — different retained descriptions, not a
reordering of concatenation. -/
theorem mergeBatches_order_dependent :
    (mergeBatches [[bobAlpha], [eastGate], [bobBeta]]).map (fun e => e.description) =
        [some "alpha", none] ∧
      (mergeBatches [[bobBeta], [bobAlpha], [eastGate]]).map (fun e => e.description) =
        [some "beta", none] ∧
      ¬mergeBatches [[bobAlpha], [eastGate], [bobBeta]] =
          mergeBatches [[bobBeta], [bobAlpha], [eastGate]] := by
  decide

/-!
## Plausibility-filter lemmas
-/

lemma containsSub_nil (l : List Char) : containsSub [] l = true := by
  cases l <;> simp [containsSub, List.isPrefixOf]

lemma pyCountAux_pos (needle : List Char) :
    ∀ (fuel : ℕ) (l : List Char), pyCountAux needle l fuel ≠ 0 → containsSub needle l = true := by
  intro fuel
  induction fuel with
  | zero => intro l h; simp [pyCountAux] at h
  | succ fuel ih =>
    intro l h
    cases l with
    | nil => simp [pyCountAux] at h
    | cons c rest =>
      unfold pyCountAux at h
      unfold containsSub
      by_cases hp : needle.isPrefixOf (c :: rest)
      · simp [hp]
      · rw [if_neg hp] at h
        simp [hp, ih rest h]

lemma pyCount_pos (needle hay : List Char) (h : pyCount needle hay ≠ 0) :
    containsSub needle hay = true := by
  unfold pyCount at h
  by_cases he : needle.isEmpty = true
  · obtain rfl : needle = [] := by simpa [List.isEmpty_iff] using he
    exact containsSub_nil hay
  · rw [if_neg he] at h
    exact pyCountAux_pos needle hay.length hay h

lemma nameInSource_of_contains (name source : String)
    (h : pyContains (pyLower source) (pyLower name) = true) :
    nameInSource name source = true := by
  unfold nameInSource
  rw [if_pos h]

lemma checkEntity_risk (e : Entity) (s : String) :
    (checkEntity e s).hallucinationRisk = some (min 1 (rawRiskScore e s)) := by
  unfold checkEntity
  dsimp only
  split <;> rfl

lemma checkEntity_flag_fields (e : Entity) (s : String) (h : 1/2 < rawRiskScore e s) :
    (checkEntity e s).confidence = some (min (e.confidence.getD (1/2)) (6/10)) ∧
      (checkEntity e s).flagged = some true ∧
      (checkEntity e s).flagReason =
        some ("Possible hallucination: " ++ String.intercalate ", " (checkReasons e s)) := by
  unfold checkEntity
  dsimp only
  rw [if_pos h]
  exact ⟨rfl, rfl, rfl⟩

/-- C5 (amended): a candidate whose (lowercased) name never occurs in the
(lowercased) chunk text gets `hallucination_risk ≥ 0.4`; a candidate whose
name occurs exactly once, whose description has at most 200 characters, and
whose name matches none of the three suspicious-title patterns gets risk
exactly 0.  (A suspicious pattern hit adds 0.3 even to a grounded,
single-mention candidate — see the counterexample.) -/
theorem checkEntity_risk_bounds (e : Entity) (src : String) :
    (mentionsInSource e src = 0 →
      2/5 ≤ (checkEntity e src).hallucinationRisk.getD 0) ∧
      (mentionsInSource e src = 1 →
        (e.description.getD "").length ≤ 200 →
        suspicious1 e = false → suspicious2 e = false → suspicious3 e = false →
        (checkEntity e src).hallucinationRisk = some 0) := by
  constructor
  · intro hm
    rw [checkEntity_risk]
    have hraw : 2/5 ≤ rawRiskScore e src := by
      unfold rawRiskScore
      rw [hm]
      norm_num
      split_ifs <;> norm_num
    simp only [Option.getD_some]
    exact le_min (by norm_num) hraw
  · intro hm hd h1 h2 h3
    have hcontains : pyContains (pyLower src) (pyLower (e.name.getD "")) = true := by
      unfold mentionsInSource pyCountStr at hm
      exact pyCount_pos _ _ (by omega)
    have hc1 : check1Fires e src = false := by
      unfold check1Fires
      rw [nameInSource_of_contains _ _ hcontains]
      rfl
    have hraw : rawRiskScore e src = 0 := by
      unfold rawRiskScore
      rw [hm, hc1, h1, h2, h3]
      have hno3 : ¬((1:ℕ) = 0) := by omega
      have hnod : ¬((1:ℕ) = 1 ∧ 200 < (e.description.getD "").length) := by
        rintro ⟨_, hh⟩; omega
      have hno4 : ¬(9/10 < e.confidence.getD (1/2) ∧
          300 < (e.description.getD "").length ∧ (1:ℕ) < 3) := by
        rintro ⟨_, hh, _⟩; omega
      rw [if_neg hno3, if_neg hnod, if_neg hno4]
      norm_num
    rw [checkEntity_risk, hraw]
    norm_num

/-- C5 witness: `"marcus"` occurring once in `"marcus was here"` with no
description scores exactly 0; `"ghost"` occurring nowhere in
`"nothing here"` scores at least 0.4. -/
theorem checkEntity_risk_bounds_witness :
    (checkEntity marcusBare "marcus was here").hallucinationRisk = some 0 ∧
      2/5 ≤ (checkEntity ghostBare "nothing here").hallucinationRisk.getD 0 :=
  ⟨(checkEntity_risk_bounds marcusBare "marcus was here").2 (by decide) (by decide)
      (by decide) (by decide) (by decide),
    (checkEntity_risk_bounds ghostBare "nothing here").1 (by decide)⟩

/-- C5 counterexample: `"the great foo"` occurs literally exactly once in
its chunk text and has an empty description, yet its risk is 0.3, not 0 —
the suspicious-title pattern `\bthe (great|...)\b` fires. -/
theorem checkEntity_suspicious_name_nonzero_risk :
    mentionsInSource greatFoo "the great foo" = 1 ∧
      (greatFoo.description.getD "").length ≤ 200 ∧
      (checkEntity greatFoo "the great foo").hallucinationRisk = some (3/10) ∧
      ¬((3:ℚ)/10 = 0) := by
  refine ⟨by decide, by decide, ?_, by norm_num⟩
  rw [checkEntity_risk]
  have : rawRiskScore greatFoo "the great foo" = 3/10 := by
    unfold rawRiskScore
    norm_num [show check1Fires greatFoo "the great foo" = false from by decide,
      show suspicious1 greatFoo = true from by decide,
      show suspicious2 greatFoo = false from by decide,
      show suspicious3 greatFoo = false from by decide,
      show mentionsInSource greatFoo "the great foo" = 1 from by decide,
      show (greatFoo.description.getD "").length = 0 from by decide,
      show greatFoo.confidence.getD (1/2) = 1/2 from by decide]
  rw [this]
  norm_num

lemma filterMap_check (l : List Entity) (src : String) (t : ℚ) :
    (l.filterMap fun entity =>
        let checked := checkEntity entity src
        if checked.hallucinationRisk.getD 0 < t then some checked else none) =
      (l.map (fun e => checkEntity e src)).filter
        (fun c => c.hallucinationRisk.getD 0 < t) := by
  induction l with
  | nil => rfl
  | cons e rest ih =>
    simp only [List.filterMap_cons, List.map_cons, List.filter_cons]
    by_cases h : (checkEntity e src).hallucinationRisk.getD 0 < t <;> simp [h, ih]

/-- C6: filtering at the default threshold 0.7 keeps, per entity type,
exactly the checked entities whose stored risk is strictly below 0.7 (so it
removes exactly those at or above it), and every retained entity whose risk
exceeds 0.5 has its confidence capped at 0.6, `flagged = true`, and a
human-readable flag reason attached. -/
theorem filterHallucinations_threshold_and_flagging
    (entities : List (String × List Entity)) (src : String) :
    filterHallucinations entities src (7/10) =
        entities.map (fun p =>
          (p.1, (p.2.map (fun e => checkEntity e src)).filter
            (fun c => c.hallucinationRisk.getD 0 < 7/10))) ∧
      ∀ p ∈ filterHallucinations entities src (7/10), ∀ c ∈ p.2,
        c.hallucinationRisk.getD 0 < 7/10 ∧
          (1/2 < c.hallucinationRisk.getD 0 →
            (∃ q, c.confidence = some q ∧ q ≤ 6/10) ∧ c.flagged = some true ∧
              ∃ r, c.flagReason = some ("Possible hallucination: " ++ r)) := by
  have heq : filterHallucinations entities src (7/10) =
      entities.map (fun p =>
        (p.1, (p.2.map (fun e => checkEntity e src)).filter
          (fun c => c.hallucinationRisk.getD 0 < 7/10))) := by
    unfold filterHallucinations
    refine List.map_congr_left fun p _ => ?_
    exact congrArg (Prod.mk p.1) (filterMap_check p.2 src (7/10))
  refine ⟨heq, ?_⟩
  intro p hp c hc
  rw [heq] at hp
  obtain ⟨q, _, rfl⟩ := List.mem_map.mp hp
  obtain ⟨hcm, hpred⟩ := List.mem_filter.mp hc
  have hlt : c.hallucinationRisk.getD 0 < 7/10 := by simpa using hpred
  refine ⟨hlt, fun hgt => ?_⟩
  obtain ⟨e, _, rfl⟩ := List.mem_map.mp hcm
  have hraw : 1/2 < rawRiskScore e src := by
    rw [checkEntity_risk] at hgt
    simp only [Option.getD_some] at hgt
    exact lt_of_lt_of_le hgt (min_le_right _ _)
  obtain ⟨hconf, hflag, hreason⟩ := checkEntity_flag_fields e src hraw
  exact ⟨⟨_, hconf, min_le_right _ _⟩, hflag, _, hreason⟩

/-- C6 witness: on a concrete chunk, a grounded candidate is kept unchanged
below both boundaries while an ungrounded one (risk 0.9) is dropped. -/
theorem filterHallucinations_threshold_witness :
    filterHallucinations [("npcs", [ghostBare])] "nothing here" (7/10) = [("npcs", [])] := by
  have h := (filterHallucinations_threshold_and_flagging [("npcs", [ghostBare])]
    "nothing here").1
  rw [h]
  have hrisk : (checkEntity ghostBare "nothing here").hallucinationRisk = some (9/10) := by
    rw [checkEntity_risk]
    have : rawRiskScore ghostBare "nothing here" = 9/10 := by
      unfold rawRiskScore
      norm_num [show check1Fires ghostBare "nothing here" = true from by decide,
        show suspicious1 ghostBare = false from by decide,
        show suspicious2 ghostBare = false from by decide,
        show suspicious3 ghostBare = false from by decide,
        show mentionsInSource ghostBare "nothing here" = 0 from by decide,
        show ghostBare.confidence.getD (1/2) = 1/2 from by decide,
        show (ghostBare.description.getD "").length = 0 from by decide]
    rw [this]
    norm_num
  simp [hrisk]
  all_goals decide

/-!
## Scan-lock evaluation
-/

/-- C9 is a code bug: a lock taken at second 0 and challenged at second
87000 (24 h 10 min later, far beyond the 30-minute staleness threshold) is
NOT reclaimed — `acquire_scan_lock` measures staleness with
`timedelta.seconds` (the duration's seconds component, here
87000 mod 86400 = 600 < 1800), not `total_seconds()`, so the day-old lock
looks fresh and the scan attempt is skipped. -/
theorem staleLock_day_old_not_reclaimed :
    acquireScanLock [("chat.jsonl", 0)] "chat.jsonl" 87000 = (false, [("chat.jsonl", 0)]) ∧
      1800 < 87000 - 0 ∧ timedeltaSeconds (87000 - 0) = 600 := by
  decide

/-!
## Extractor-validation lemmas
-/

lemma validateEntity_some (msgs : List String) (e v : Entity)
    (h : validateEntity msgs e = some v) :
    ∃ s, e.name = some s ∧ s ≠ "" ∧
      v = { e with
        confidence := some (max 0 (min 1 (match e.confidence with
          | none => estimateConfidence e msgs
          | some c => c)))
        mentions := match e.mentions with
          | some m => some m
          | none => some (countMentions s msgs)
        sourceContext := match e.sourceContext with
          | some c => some c
          | none => some (findContextAux s 100 msgs) } := by
  unfold validateEntity at h
  cases hn : e.name with
  | none => simp [hn] at h
  | some s =>
    simp only [hn] at h
    by_cases hs : s = ""
    · rw [if_pos hs] at h
      simp at h
    · rw [if_neg hs] at h
      refine ⟨s, rfl, hs, ?_⟩
      injection h with h'
      exact h'.symm

lemma one_le_countMentions (name : String) (msgs : List String) :
    1 ≤ countMentions name msgs := by
  unfold countMentions
  exact le_max_left 1 _

/-- C10 (amended): every entity surviving `_validate_entities` has a
non-empty name (nameless candidates are dropped) and a confidence clamped
into `[0, 1]` whatever the oracle reported, and carries a `mentions` value;
that value is the computed count — at least 1 even when the name never
occurs — exactly when the oracle supplied none, while an oracle-supplied
`mentions` (even 0) is kept verbatim (see the counterexample). -/
theorem validateEntities_invariants :
    (∀ (ents : List (String × List Entity)) (msgs : List String),
      ∀ p ∈ validateEntities ents msgs, ∀ v ∈ p.2,
        (∃ s, v.name = some s ∧ s ≠ "") ∧
          (∃ q, v.confidence = some q ∧ 0 ≤ q ∧ q ≤ 1) ∧ ∃ m, v.mentions = some m) ∧
      ∀ (msgs : List String) (e v : Entity), validateEntity msgs e = some v →
        (e.mentions = none → ∃ m, v.mentions = some m ∧ 1 ≤ m) ∧
          ∀ m, e.mentions = some m → v.mentions = some m := by
  constructor
  · intro ents msgs p hp v hv
    rw [validateEntities] at hp
    obtain ⟨t, _, rfl⟩ := List.mem_map.mp hp
    have hv' : ∃ e, validateEntity msgs e = some v := by
      rcases hfind : ents.find? (fun q => q.1 == t) with _ | q
      · rw [hfind] at hv
        exact absurd hv (List.not_mem_nil v)
      · rw [hfind] at hv
        obtain ⟨e, _, he⟩ := List.mem_filterMap.mp hv
        exact ⟨e, he⟩
    obtain ⟨e, he⟩ := hv'
    obtain ⟨s, hn, hs, rfl⟩ := validateEntity_some msgs e v he
    refine ⟨⟨s, hn, hs⟩, ⟨_, rfl, le_max_left 0 _, max_le (by norm_num) (min_le_left 1 _)⟩, ?_⟩
    cases e.mentions <;> simp
  · intro msgs e v he
    obtain ⟨s, hn, hs, rfl⟩ := validateEntity_some msgs e v he
    constructor
    · intro hm
      rw [hm]
      exact ⟨countMentions s msgs, rfl, one_le_countMentions s msgs⟩
    · intro m hm
      rw [hm]

/-- C10 counterexample: an oracle candidate that itself reports
`mentions = 0` passes validation with `mentions = 0`, violating the claimed
`mentions ≥ 1` invariant. -/
theorem validateEntity_keeps_zero_mentions :
    (validateEntities [("npcs", [bobZeroMentions])] ["hi"]).map
        (fun p => p.2.map (fun v => v.mentions)) =
      [[some 0], [], [], [], [], []] ∧ ¬(1 ≤ 0) := by
  decide

end STCM
